import Mathlib

/-!
# Verification of the obsidian-task-todoist reconciliation engine

Shallow embedding, in Lean 4, of the parts of the plugin that the checked
specification claims talk about:

* the FNV-1a-style content fingerprints (`simpleStableHash`,
  `buildRemoteImportSignature`, `buildTodoistSyncSignature`),
* the frontmatter update performed on a remote upsert (`updateTaskFile`),
* the create-dispatch sequence of a sync run (`runImportSync`, pending marks),
* the vault index builder (`buildVaultIndexes`),
* missing-remote classification (`findMissingEntries`),
* the pending-local-create scan (`listPendingLocalCreates`),
* the collision-safe path allocator (`getUniqueFilePathInFolder`),
* the signature-line repair routine (`repairSignatureFrontmatterInContent`),
* the task status reader (`getTaskStatus`).

Definitions are translated from the TypeScript sources
(`src/task-note-repository.ts`, `src/task-frontmatter.ts`,
`src/task-note-factory.ts`, the `SyncService` module); definitions whose
names contain `Spec` follow the specification's wording instead, for
comparison against the code-level definitions.
-/

namespace TaskTodoist

/-! ## JavaScript string primitives

The plugin is JavaScript, so strings are sequences of UTF-16 code units and
`charCodeAt` iterates code units.  We model strings by Lean `String`
(sequences of unicode scalar values) plus explicit encoders to UTF-16 code
units and UTF-8 bytes. -/

/-- JavaScript's whitespace class (the set used by `String.prototype.trim`
and by `\s` in regular expressions): WhiteSpace ∪ LineTerminator. -/
def jsIsSpace (c : Char) : Bool :=
  c.toNat = 0x09 || c.toNat = 0x0A || c.toNat = 0x0B || c.toNat = 0x0C ||
  c.toNat = 0x0D || c.toNat = 0x20 || c.toNat = 0xA0 || c.toNat = 0x1680 ||
  (0x2000 ≤ c.toNat && c.toNat ≤ 0x200A) || c.toNat = 0x2028 ||
  c.toNat = 0x2029 || c.toNat = 0x202F || c.toNat = 0x205F ||
  c.toNat = 0x3000 || c.toNat = 0xFEFF

/-- `String.prototype.trim()`. -/
def jsTrim (s : String) : String :=
  ⟨((s.toList.dropWhile jsIsSpace).reverse.dropWhile jsIsSpace).reverse⟩

/-- The UTF-16 code units of one unicode scalar value. -/
def charUtf16Units (c : Char) : List Nat :=
  if c.toNat < 0x10000 then [c.toNat]
  else [0xD800 + (c.toNat - 0x10000) / 0x400, 0xDC00 + (c.toNat - 0x10000) % 0x400]

/-- The UTF-16 code units of a string (what `charCodeAt` ranges over). -/
def utf16Units (s : String) : List Nat :=
  s.toList.flatMap charUtf16Units

/-- The UTF-8 bytes of one unicode scalar value. -/
def charUtf8Bytes (c : Char) : List Nat :=
  let n := c.toNat
  if n < 0x80 then [n]
  else if n < 0x800 then [0xC0 + n / 0x40, 0x80 + n % 0x40]
  else if n < 0x10000 then [0xE0 + n / 0x1000, 0x80 + n / 0x40 % 0x40, 0x80 + n % 0x40]
  else [0xF0 + n / 0x40000, 0x80 + n / 0x1000 % 0x40, 0x80 + n / 0x40 % 0x40, 0x80 + n % 0x40]

/-- The UTF-8 encoding of a string, as a byte list. -/
def utf8Bytes (s : String) : List Nat :=
  s.toList.flatMap charUtf8Bytes

/-! ## The 32-bit FNV-1a-style hash (`simpleStableHash`)

Source (task-note-repository.ts):
```
let hash = 2166136261;
for (let i = 0; i < value.length; i += 1) {
  hash ^= value.charCodeAt(i);
  hash += (hash << 1) + (hash << 4) + (hash << 7) + (hash << 8) + (hash << 24);
}
return (hash >>> 0).toString(16).padStart(8, '0');
```
The shift-and-add is multiplication by 16777619; the JavaScript coercions
(`^=` forcing ToInt32, final `>>> 0`) keep the running value congruent
mod 2^32, so the loop is FNV-1a's xor-then-multiply on the UTF-16 code
units of the input string. -/

/-- One hash round: xor in a code unit, multiply by the FNV prime mod 2^32. -/
def fnvStep (h c : Nat) : Nat := ((h ^^^ c) * 16777619) % 4294967296

/-- 32-bit FNV-1a over a list of code units / bytes. -/
def fnv1a32 (units : List Nat) : Nat := units.foldl fnvStep 2166136261

/-- Lowercase hex digit for a value `< 16`. -/
def hexDigit (n : Nat) : Char :=
  if n < 10 then Char.ofNat (48 + n) else Char.ofNat (87 + n)

/-- Hex digits of `n` (most significant first), 8 digits of fuel (enough for
any value `< 2^32`); empty for `n = 0`. -/
def hexDigitsAux : Nat → Nat → List Char
  | 0, _ => []
  | fuel + 1, n => if n = 0 then [] else hexDigitsAux fuel (n / 16) ++ [hexDigit (n % 16)]

/-- `Number.prototype.toString(16)` for a value `< 2^32`. -/
def toHexString (n : Nat) : String :=
  if n = 0 then "0" else ⟨hexDigitsAux 8 n⟩

/-- `String.prototype.padStart(8, '0')`. -/
def padStart8Zero (s : String) : String :=
  ⟨List.replicate (8 - s.length) '0' ++ s.toList⟩

/-- `(hash >>> 0).toString(16).padStart(8, '0')` applied to the final value. -/
def toHex8 (n : Nat) : String := padStart8Zero (toHexString n)

/-- `simpleStableHash` from task-note-repository.ts: FNV-1a-style hash of the
UTF-16 code units of the argument string, as 8 zero-padded hex chars. -/
def simpleStableHash (value : String) : String :=
  toHex8 (fnv1a32 (utf16Units value))

/-! ## Canonical JSON serialisation (`JSON.stringify` of a flat array) -/

/-- A JSON value appearing in the signature arrays: a string or a number. -/
inductive JsonVal where
  | jstr (s : String)
  | jnum (n : Nat)
deriving DecidableEq, Repr

/-- `JSON.stringify` escaping of one character inside a string literal. -/
def jsonEscapeChar (c : Char) : List Char :=
  if c = '"' then ['\\', '"']
  else if c = '\\' then ['\\', '\\']
  else if c = Char.ofNat 8 then ['\\', 'b']
  else if c = Char.ofNat 9 then ['\\', 't']
  else if c = Char.ofNat 10 then ['\\', 'n']
  else if c = Char.ofNat 12 then ['\\', 'f']
  else if c = Char.ofNat 13 then ['\\', 'r']
  else if c.toNat < 0x20 then
    ['\\', 'u', '0', '0', hexDigit (c.toNat / 16), hexDigit (c.toNat % 16)]
  else [c]

/-- `JSON.stringify` of a string value. -/
def jsonQuote (s : String) : String :=
  ⟨'"' :: s.toList.flatMap jsonEscapeChar ++ ['"']⟩

/-- `JSON.stringify` of one array element. -/
def jsonRender : JsonVal → String
  | .jstr s => jsonQuote s
  | .jnum n => toString n

/-- `JSON.stringify` of a flat array of strings and numbers. -/
def jsonArray (vs : List JsonVal) : String :=
  "[" ++ String.intercalate "," (vs.map jsonRender) ++ "]"

/-! ## Remote snapshot data (the `TodoistItem` shape consumed by the core) -/

/-- `item.due`: `{ date?: string; string?: string; is_recurring?: boolean }`. -/
structure TodoistDue where
  date : Option String
  string : Option String
  is_recurring : Bool
deriving DecidableEq, Repr

/-- `item.deadline`: `{ date?: string }`. -/
structure TodoistDeadline where
  date : Option String
deriving DecidableEq, Repr

/-- A remote task row as consumed by the reconciler. -/
structure TodoistItem where
  id : String
  content : String
  description : Option String
  checked : Bool
  project_id : String
  section_id : Option String
  parent_id : Option String
  priority : Option Nat
  due : Option TodoistDue
  deadline : Option TodoistDeadline
  labels : Option (List String)
  is_deleted : Bool
deriving DecidableEq, Repr

/-- The name/file maps handed to the repository (`ProjectSectionMaps`);
files are represented by their vault paths. -/
structure ProjectSectionMaps where
  projectNameById : List (String × String)
  sectionNameById : List (String × String)
  projectFileById : List (String × String)
  sectionFileById : List (String × String)
deriving DecidableEq, Repr

/-- `Map.get` on an id-keyed map (first binding wins). -/
def lookupStr (m : List (String × String)) (k : String) : Option String :=
  (m.find? (fun e => e.1 == k)).map (·.2)

/-- JavaScript truthiness of an optional string (`undefined` and `''` are falsy). -/
def optTruthy (o : Option String) : Bool :=
  match o with
  | some s => s != ""
  | none => false

/-! ## The two signature builders (task-note-repository.ts) -/

/-- `buildRemoteImportSignature(item, maps)`: hash of the canonical JSON array
of the remote-owned fields, in source order. -/
def buildRemoteImportSignature (item : TodoistItem) (maps : ProjectSectionMaps) : String :=
  simpleStableHash (jsonArray [
    .jstr item.content,
    .jstr (item.description.getD ""),
    .jnum (if item.checked then 1 else 0),
    .jstr item.project_id,
    .jstr ((lookupStr maps.projectNameById item.project_id).getD "Unknown"),
    .jstr (item.section_id.getD ""),
    .jstr (if optTruthy item.section_id then
             (lookupStr maps.sectionNameById (item.section_id.getD "")).getD ""
           else ""),
    .jnum (item.priority.getD 1),
    .jstr ((item.due.bind (·.date)).getD ""),
    .jstr ((item.due.bind (·.string)).getD ""),
    .jnum (if (item.due.map (·.is_recurring)).getD false then 1 else 0),
    .jstr (item.parent_id.getD ""),
    .jstr (String.intercalate "|" (item.labels.getD [])),
    .jstr ((item.deadline.bind (·.date)).getD "")])

/-- The input record of `buildTodoistSyncSignature`. -/
structure TodoistSyncInput where
  title : String
  description : String
  isDone : Bool
  isRecurring : Bool
  projectId : Option String
  sectionId : Option String
  dueDate : Option String
  dueString : Option String
deriving DecidableEq, Repr

/-- `buildTodoistSyncSignature(input)`: hash of the canonical JSON array of
the locally-pushed fields, in source order (this variant trims). -/
def buildTodoistSyncSignature (input : TodoistSyncInput) : String :=
  simpleStableHash (jsonArray [
    .jstr (jsTrim input.title),
    .jstr (jsTrim input.description),
    .jnum (if input.isDone then 1 else 0),
    .jnum (if input.isRecurring then 1 else 0),
    .jstr ((input.projectId.map jsTrim).getD ""),
    .jstr ((input.sectionId.map jsTrim).getD ""),
    .jstr ((input.dueDate.map jsTrim).getD ""),
    .jstr ((input.dueString.map jsTrim).getD "")])

/-! ## Specification-level fingerprints (for claim C3)

`RemoteImportRecord` is the record, with the remote-import variant's fields
materialised, that §4.1 of the specification quantifies over; the
`Spec…Fingerprint` functions follow the specification's wording, the
`…Amended` variants the corrected wording. -/

/-- The remote-import variant's field record (spec §4.1 first list). -/
structure RemoteImportRecord where
  title : String
  description : Option String
  checked : Bool
  projectId : String
  projectName : String
  sectionId : Option String
  sectionName : Option String
  priority : Nat
  dueDate : Option String
  dueString : Option String
  isRecurring : Bool
  parentTaskId : Option String
  labels : List String
  deadlineDate : Option String
deriving DecidableEq, Repr

/-- Materialises the record hashed by `buildRemoteImportSignature`: names are
resolved through the maps exactly as at the call site. -/
def remoteImportRecordOf (item : TodoistItem) (maps : ProjectSectionMaps) : RemoteImportRecord where
  title := item.content
  description := item.description
  checked := item.checked
  projectId := item.project_id
  projectName := (lookupStr maps.projectNameById item.project_id).getD "Unknown"
  sectionId := item.section_id
  sectionName :=
    if optTruthy item.section_id then
      some ((lookupStr maps.sectionNameById (item.section_id.getD "")).getD "")
    else none
  priority := item.priority.getD 1
  dueDate := item.due.bind (·.date)
  dueString := item.due.bind (·.string)
  isRecurring := (item.due.map (·.is_recurring)).getD false
  parentTaskId := item.parent_id
  labels := item.labels.getD []
  deadlineDate := item.deadline.bind (·.date)

/-- Modelled from the spec (claim C3 as stated): FNV-1a 32-bit over the
UTF-8 encoding of the canonical JSON array of the remote-import fields,
with all string fields trimmed, booleans as 0/1, labels joined with `|`,
absent optional fields as the empty string. -/
def specRemoteImportFingerprint (r : RemoteImportRecord) : String :=
  toHex8 (fnv1a32 (utf8Bytes (jsonArray [
    .jstr (jsTrim r.title),
    .jstr (jsTrim (r.description.getD "")),
    .jnum (if r.checked then 1 else 0),
    .jstr (jsTrim r.projectId),
    .jstr (jsTrim r.projectName),
    .jstr (jsTrim (r.sectionId.getD "")),
    .jstr (jsTrim (r.sectionName.getD "")),
    .jnum r.priority,
    .jstr (jsTrim (r.dueDate.getD "")),
    .jstr (jsTrim (r.dueString.getD "")),
    .jnum (if r.isRecurring then 1 else 0),
    .jstr (jsTrim (r.parentTaskId.getD "")),
    .jstr (jsTrim (String.intercalate "|" r.labels)),
    .jstr (jsTrim (r.deadlineDate.getD ""))])))

/-- Modelled from the spec, as amended: same canonical JSON array, but hashed
over the UTF-16 code units of the array text, and the remote-import variant's
string fields enter untrimmed. -/
def specRemoteImportFingerprintAmended (r : RemoteImportRecord) : String :=
  toHex8 (fnv1a32 (utf16Units (jsonArray [
    .jstr r.title,
    .jstr (r.description.getD ""),
    .jnum (if r.checked then 1 else 0),
    .jstr r.projectId,
    .jstr r.projectName,
    .jstr (r.sectionId.getD ""),
    .jstr (r.sectionName.getD ""),
    .jnum r.priority,
    .jstr (r.dueDate.getD ""),
    .jstr (r.dueString.getD ""),
    .jnum (if r.isRecurring then 1 else 0),
    .jstr (r.parentTaskId.getD ""),
    .jstr (String.intercalate "|" r.labels),
    .jstr (r.deadlineDate.getD "")])))

/-- Modelled from the spec (claim C3 as stated), local-sync variant: UTF-8
bytes of the canonical JSON array, all string fields trimmed, absent
optional fields as the empty string. -/
def specLocalSyncFingerprint (r : TodoistSyncInput) : String :=
  toHex8 (fnv1a32 (utf8Bytes (jsonArray [
    .jstr (jsTrim r.title),
    .jstr (jsTrim r.description),
    .jnum (if r.isDone then 1 else 0),
    .jnum (if r.isRecurring then 1 else 0),
    .jstr (jsTrim (r.projectId.getD "")),
    .jstr (jsTrim (r.sectionId.getD "")),
    .jstr (jsTrim (r.dueDate.getD "")),
    .jstr (jsTrim (r.dueString.getD ""))])))

/-- Modelled from the spec, as amended, local-sync variant: trimming stays
(this variant does trim), but the hash runs over UTF-16 code units. -/
def specLocalSyncFingerprintAmended (r : TodoistSyncInput) : String :=
  toHex8 (fnv1a32 (utf16Units (jsonArray [
    .jstr (jsTrim r.title),
    .jstr (jsTrim r.description),
    .jnum (if r.isDone then 1 else 0),
    .jnum (if r.isRecurring then 1 else 0),
    .jstr ((r.projectId.map jsTrim).getD ""),
    .jstr ((r.sectionId.map jsTrim).getD ""),
    .jstr ((r.dueDate.map jsTrim).getD ""),
    .jstr ((r.dueString.map jsTrim).getD "")])))

/-- On pure-ASCII strings the UTF-8 byte sequence and the UTF-16 code-unit
sequence coincide, so the two hash inputs agree (context for the C3
amendment). -/
theorem charList_utf8_eq_utf16_of_ascii (l : List Char)
    (h : ∀ c ∈ l, c.toNat < 128) :
    l.flatMap charUtf8Bytes = l.flatMap charUtf16Units := by
  induction l with
  | nil => rfl
  | cons c cs ih =>
    have hc : c.toNat < 128 := h c (List.mem_cons_self ..)
    have hcs : ∀ x ∈ cs, x.toNat < 128 := fun x hx => h x (List.mem_cons_of_mem _ hx)
    simp only [List.flatMap_cons, ih hcs]
    congr 1
    unfold charUtf8Bytes charUtf16Units
    have h16 : c.toNat < 0x10000 := by omega
    simp [hc, h16]

theorem utf8Bytes_eq_utf16Units_of_ascii (s : String)
    (h : ∀ c ∈ s.toList, c.toNat < 128) : utf8Bytes s = utf16Units s :=
  charList_utf8_eq_utf16_of_ascii s.toList h

/-- A remote item whose title contains a non-ASCII character. -/
def c3ItemNonAscii : TodoistItem :=
  { id := "1", content := "é", description := none, checked := false,
    project_id := "P1", section_id := none, parent_id := none,
    priority := some 1, due := none, deadline := none, labels := none,
    is_deleted := false }

/-- A remote item whose title carries a trailing space. -/
def c3ItemUntrimmed : TodoistItem :=
  { id := "1", content := "a ", description := none, checked := false,
    project_id := "P1", section_id := none, parent_id := none,
    priority := some 1, due := none, deadline := none, labels := none,
    is_deleted := false }

/-- A one-project snapshot map. -/
def c3Maps : ProjectSectionMaps :=
  { projectNameById := [("P1", "Personal")], sectionNameById := [],
    projectFileById := [], sectionFileById := [] }

set_option maxRecDepth 400000 in
/-- C3 counterexample: the fingerprint computed by the code differs from the
hash the claim describes, (i) on a title with a non-ASCII character — the
code hashes UTF-16 code units (`charCodeAt`), not the UTF-8 encoding — and
(ii) on a title with a trailing space — the remote-import variant hashes its
string fields untrimmed. -/
theorem C3_fingerprint_spec_counterexample :
    buildRemoteImportSignature c3ItemNonAscii c3Maps ≠
      specRemoteImportFingerprint (remoteImportRecordOf c3ItemNonAscii c3Maps) ∧
    buildRemoteImportSignature c3ItemUntrimmed c3Maps ≠
      specRemoteImportFingerprint (remoteImportRecordOf c3ItemUntrimmed c3Maps) := by
  constructor <;> decide

/-- C3 (amended): for every record and both variants, the fingerprint equals
the 32-bit FNV-1a hash — zero-padded to 8 lowercase hex characters — of the
UTF-16 code units of the canonical JSON array of that variant's fields in the
specified order (which coincides with hashing the UTF-8 encoding whenever the
array text is pure ASCII), with booleans encoded as 0/1, label lists joined
with `|`, and absent optional fields treated as the empty string; string
fields are trimmed in the local-sync variant but enter untrimmed in the
remote-import variant. -/
theorem C3_fingerprint_amended :
    (∀ (item : TodoistItem) (maps : ProjectSectionMaps),
      buildRemoteImportSignature item maps =
        specRemoteImportFingerprintAmended (remoteImportRecordOf item maps)) ∧
    (∀ input : TodoistSyncInput,
      buildTodoistSyncSignature input = specLocalSyncFingerprintAmended input) := by
  constructor
  · intro item maps
    unfold buildRemoteImportSignature specRemoteImportFingerprintAmended
      remoteImportRecordOf simpleStableHash
    cases h : optTruthy item.section_id <;> simp [h]
  · intro input
    rfl

/-! ## Dynamic frontmatter values

Obsidian hands the plugin frontmatter as a dynamic `Record<string, unknown>`;
YAML scalars arrive as strings, numbers, booleans or null, and a key can be
absent (`Option`). -/

/-- A dynamic YAML scalar as seen through Obsidian's metadata cache. -/
inductive FmValue where
  | str (s : String)
  | num (n : Int)
  | bool (b : Bool)
  | null
deriving DecidableEq, Repr

/-- ASCII lower-casing of one character. -/
def toLowerCharAscii (c : Char) : Char :=
  if 65 ≤ c.toNat && c.toNat ≤ 90 then Char.ofNat (c.toNat + 32) else c

/-- ASCII `String.prototype.toLowerCase()` (the values compared by the
status reader are ASCII keywords). -/
def jsToLowerAscii (s : String) : String :=
  ⟨s.toList.map toLowerCharAscii⟩

/-! ## The task status reader (`getTaskStatus`, task-frontmatter.ts) -/

/-- The four frontmatter keys consulted by `getTaskStatus`: the configured
`task_done` and `task_status` keys plus the legacy `done` and `status` keys. -/
structure StatusFm where
  task_done : Option FmValue
  task_status : Option FmValue
  done : Option FmValue
  status : Option FmValue
deriving DecidableEq, Repr

/-- `value.trim().toLowerCase()` of a frontmatter value when it is a string;
empty otherwise (`typeof x === 'string' ? ... : ''`). -/
def fmStatusNormalized (v : Option FmValue) : String :=
  match v with
  | some (.str s) => jsToLowerAscii (jsTrim s)
  | _ => ""

/-- `getTaskStatus(frontmatter, settings)` from task-frontmatter.ts. -/
def getTaskStatus (fm : StatusFm) : String :=
  if fm.task_done = some (.bool true) ∨ fm.task_done = some (.str "true") then "done"
  else if fm.task_done = some (.bool false) ∨ fm.task_done = some (.str "false") then "open"
  else if fmStatusNormalized fm.task_status = "done" then "done"
  else if fmStatusNormalized fm.task_status = "open" then "open"
  else if fm.done = some (.bool true) ∨ fm.done = some (.str "true") then "done"
  else if fmStatusNormalized fm.status = "done" then "done"
  else "open"

/-- The boolean carried by a `task_done` value, when it holds one in the sense
of the reader: `true`/`false` as booleans or as the exact strings
`"true"`/`"false"`. -/
def taskDoneBool (v : Option FmValue) : Option Bool :=
  if v = some (.bool true) ∨ v = some (.str "true") then some true
  else if v = some (.bool false) ∨ v = some (.str "false") then some false
  else none

/-- C10: the task-status reader is total — it returns `"done"` or `"open"`
for every frontmatter map — and `task_done` takes precedence: whenever
`task_done` holds a boolean (as a boolean or the strings `"true"`/`"false"`)
the result is determined by that boolean alone, regardless of `task_status`;
only otherwise does `task_status` decide (`done`/`open`, trimmed,
case-insensitive), then the legacy `done` key, then the legacy `status` key,
and the default for any other input is `"open"`. -/
theorem C10_getTaskStatus_total_and_precedence :
    (∀ fm : StatusFm, getTaskStatus fm = "done" ∨ getTaskStatus fm = "open") ∧
    (∀ (fm : StatusFm) (b : Bool), taskDoneBool fm.task_done = some b →
      getTaskStatus fm = if b then "done" else "open") ∧
    (∀ fm : StatusFm, taskDoneBool fm.task_done = none →
      getTaskStatus fm =
        (if fmStatusNormalized fm.task_status = "done" then "done"
         else if fmStatusNormalized fm.task_status = "open" then "open"
         else if fm.done = some (.bool true) ∨ fm.done = some (.str "true") then "done"
         else if fmStatusNormalized fm.status = "done" then "done"
         else "open")) := by
  refine ⟨?_, ?_, ?_⟩
  · intro fm
    unfold getTaskStatus
    split_ifs <;> simp
  · intro fm b h
    unfold taskDoneBool at h
    unfold getTaskStatus
    by_cases h1 : fm.task_done = some (.bool true) ∨ fm.task_done = some (.str "true")
    · simp only [if_pos h1] at h ⊢
      cases h
      rfl
    · by_cases h2 : fm.task_done = some (.bool false) ∨ fm.task_done = some (.str "false")
      · simp only [if_neg h1, if_pos h2] at h ⊢
        cases h
        rfl
      · simp only [if_neg h1, if_neg h2] at h
        cases h
  · intro fm h
    unfold taskDoneBool at h
    unfold getTaskStatus
    by_cases h1 : fm.task_done = some (.bool true) ∨ fm.task_done = some (.str "true")
    · simp [if_pos h1] at h
    · by_cases h2 : fm.task_done = some (.bool false) ∨ fm.task_done = some (.str "false")
      · simp [if_neg h1, if_pos h2] at h
      · simp only [if_neg h1, if_neg h2]

/-- C10 witness: on a map with `task_done: "true"` and `task_status: Open`,
the reader returns `"done"` — `task_done` wins. -/
theorem C10_witness :
    taskDoneBool (some (.str "true")) = some true ∧
    getTaskStatus ⟨some (.str "true"), some (.str "Open"), none, none⟩ = "done" := by
  refine ⟨by decide, ?_⟩
  have h := C10_getTaskStatus_total_and_precedence.2.1
    ⟨some (.str "true"), some (.str "Open"), none, none⟩ true (by decide)
  simpa using h

/-! ## Missing-remote classification (`findMissingEntries`, SyncService) -/

/-- An entry of the task index handed to the missing-remote pass
(`SyncedTaskEntry`; files represented by their vault paths). -/
structure SyncedTaskEntry where
  todoistId : String
  path : String
deriving DecidableEq, Repr

/-- `MissingTaskEntry`: a task-index entry plus its deleted/completed
classification. -/
structure MissingTaskEntry where
  todoistId : String
  path : String
  isDeletedRemote : Bool
deriving DecidableEq, Repr

/-- `activeItemById.get` (first binding wins). -/
def lookupItem (m : List (String × TodoistItem)) (k : String) : Option TodoistItem :=
  (m.find? (fun e => e.1 == k)).map (·.2)

/-- `findMissingEntries(existingSyncedTasks, activeItemById, recentlyDeletedIds)`
from the SyncService module. -/
def findMissingEntries (existing : List SyncedTaskEntry)
    (activeItemById : List (String × TodoistItem))
    (recentlyDeletedIds : List String) : List MissingTaskEntry :=
  existing.filterMap fun entry =>
    let remoteItem := lookupItem activeItemById entry.todoistId
    if remoteItem.isNone || (remoteItem.map (·.is_deleted)).getD false then
      some ⟨entry.todoistId, entry.path,
        (remoteItem.map (·.is_deleted)).getD false ||
          recentlyDeletedIds.contains entry.todoistId⟩
    else none

/-- C5: a task-index entry whose remote ID is absent from the active snapshot
is always classified, and it is classified as deleted exactly when its ID is
in the recently-deleted-IDs set (or its snapshot item is flagged
`is_deleted`); in every other case the produced entry is classified as
completed (`isDeletedRemote = false`). -/
theorem C5_missing_entry_classification
    (existing : List SyncedTaskEntry)
    (activeItemById : List (String × TodoistItem))
    (recentlyDeletedIds : List String) :
    (∀ e ∈ existing, lookupItem activeItemById e.todoistId = none →
      (⟨e.todoistId, e.path, recentlyDeletedIds.contains e.todoistId⟩ : MissingTaskEntry) ∈
        findMissingEntries existing activeItemById recentlyDeletedIds) ∧
    (∀ m ∈ findMissingEntries existing activeItemById recentlyDeletedIds,
      m.isDeletedRemote =
        (((lookupItem activeItemById m.todoistId).map (·.is_deleted)).getD false ||
          recentlyDeletedIds.contains m.todoistId)) := by
  constructor
  · intro e he h
    unfold findMissingEntries
    refine List.mem_filterMap.2 ⟨e, he, ?_⟩
    simp [h]
  · intro m hm
    unfold findMissingEntries at hm
    obtain ⟨e, he, hf⟩ := List.mem_filterMap.1 hm
    simp only at hf
    split at hf
    · cases hf
      simp
    · cases hf

/-- C5 witness: a one-entry index against an empty snapshot, with the entry's
ID in the recently-deleted set, classifies the entry as deleted. -/
theorem C5_witness :
    lookupItem [] "A7" = none ∧
    (⟨"A7", "Tasks/a.md", true⟩ : MissingTaskEntry) ∈
      findMissingEntries [⟨"A7", "Tasks/a.md"⟩] [] ["A7"] := by
  refine ⟨rfl, ?_⟩
  have h := (C5_missing_entry_classification [⟨"A7", "Tasks/a.md"⟩] [] ["A7"]).1
    ⟨"A7", "Tasks/a.md"⟩ (by decide) rfl
  simpa using h

/-! ## The create-dispatch sequence of a sync run (C2)

`runImportSync` (SyncService) processes each pending local create with the
step sequence below; `markCreateDispatched` and `markLocalCreateSynced` are
the two frontmatter writes (task-note-repository.ts).  Every step is a
suspension point; a crash truncates the sequence at an arbitrary prefix. -/

/-- The atomic steps `runImportSync` performs for one pending local create,
in program order. -/
inductive CreateAction where
  | callCreateTask
  | writePendingId
  | callUpdateTask
  | writeFinalFrontmatter
deriving DecidableEq, Repr

/-- The dispatch sequence for one pending note: `create_task`, then
immediately `markCreateDispatched`, then (for a done note) the completing
`update_task`, then `markLocalCreateSynced`. -/
def createDispatchSequence (isDone : Bool) : List CreateAction :=
  [.callCreateTask, .writePendingId] ++
    (if isDone then [.callUpdateTask] else []) ++
    [.writeFinalFrontmatter]

/-- The note frontmatter state tracked across the dispatch sequence. -/
structure CreateNoteState where
  todoist_id : String
  pending_remote_id : String
  sync_status : String
deriving DecidableEq, Repr

/-- Effect of one step on the note, where `createdId` is the ID returned by
the remote `create_task` call: `markCreateDispatched` writes only
`pending_remote_id`; `markLocalCreateSynced` writes `todoist_id` and
`sync_status: synced` and deletes `pending_remote_id`; remote calls do not
touch the file. -/
def applyCreateAction (createdId : String) (s : CreateNoteState) :
    CreateAction → CreateNoteState
  | .callCreateTask => s
  | .writePendingId => { s with pending_remote_id := createdId }
  | .callUpdateTask => s
  | .writeFinalFrontmatter =>
      { s with todoist_id := createdId, pending_remote_id := "", sync_status := "synced" }

/-- The note state after the first `k` steps of the dispatch sequence
(a crash at a suspension point truncates the run to such a prefix). -/
def runCreateSteps (createdId : String) (isDone : Bool) (s0 : CreateNoteState)
    (k : Nat) : CreateNoteState :=
  ((createDispatchSequence isDone).take k).foldl (applyCreateAction createdId) s0

/-- C2: the write of `pending_remote_id` is the step immediately after
`create_task` returns — no other step comes between them — and consequently,
at every later point of the run (i.e. after any prefix that extends past that
write, which covers a crash at any later suspension point), the note carries
either `todoist_id` equal to the created ID or `pending_remote_id` equal to
the created ID. -/
theorem C2_pending_mark_crash_safety
    (createdId : String) (isDone : Bool) (s0 : CreateNoteState) (k : Nat)
    (hk : 2 ≤ k) :
    (createDispatchSequence isDone).take 2 =
      [CreateAction.callCreateTask, CreateAction.writePendingId] ∧
    ((runCreateSteps createdId isDone s0 k).todoist_id = createdId ∨
      (runCreateSteps createdId isDone s0 k).pending_remote_id = createdId) := by
  constructor
  · cases isDone <;> rfl
  · unfold runCreateSteps createDispatchSequence
    cases isDone
    · match k, hk with
      | 2, _ => right; rfl
      | 3, _ => left; rfl
      | (n + 4), _ =>
        left
        simp [List.take, applyCreateAction]
    · match k, hk with
      | 2, _ => right; rfl
      | 3, _ => right; rfl
      | 4, _ => left; rfl
      | (n + 5), _ =>
        left
        simp [List.take, applyCreateAction]

/-- C2 witness: a run over a fresh note that crashes right after the pending
mark (prefix of length 2) leaves `pending_remote_id = "A2"`. -/
theorem C2_witness :
    (runCreateSteps "A2" false ⟨"", "", "queued_local_create"⟩ 2).todoist_id = "A2" ∨
    (runCreateSteps "A2" false ⟨"", "", "queued_local_create"⟩ 2).pending_remote_id = "A2" :=
  (C2_pending_mark_crash_safety "A2" false ⟨"", "", "queued_local_create"⟩ 2 (by decide)).2

/-! ## The task-note frontmatter and the upsert update (C1, C7)

`updateTaskFile` (task-note-repository.ts) mutates a task note's frontmatter
through `processFrontMatter`; we model the frontmatter as a typed record
under the default property names (the key table is configurable but the
claims are key-independent) and the mutation as a pure function.  The
recurrence translator and the clock are external collaborators (spec §1)
threaded in through `SyncEnv`. -/

/-- A stored due value: YAML string, YAML date (carrying its
`toISOString().split('T')[0]` day), or anything else. -/
inductive DueVal where
  | str (s : String)
  | date (isoDay : String)
  | other
deriving DecidableEq, Repr

/-- Settings consumed by the modelled paths. `defaultTaskTag` is taken
after template-variable resolution (the resolver is date-only and out of
scope). -/
inductive ConflictResolution where
  | localWins
  | remoteWins
deriving DecidableEq, Repr

/-- `settings.todoistLinkStyle`. -/
inductive TodoistLinkStyle where
  | app
  | web
deriving DecidableEq, Repr

/-- The settings fields read by the modelled code paths. -/
structure TaskTodoistSettings where
  conflictResolution : ConflictResolution
  todoistLinkStyle : TodoistLinkStyle
  defaultTaskTag : String
deriving DecidableEq, Repr

/-- External collaborators of an upsert: the clock (three `new Date()`
renderings) and the recurrence translator `buildRecurrenceString`
(todoist-rrule.ts, an out-of-scope collaborator whose output the reconciler
only threads through). -/
structure SyncEnv where
  nowCreated : String
  nowModified : String
  nowIso : String
  rruleOf : String → String → Option String

/-- A task note's frontmatter, typed, under the default property names.
`completeInstances` keeps the string entries of the stored list (the code
filters out non-strings on every read). -/
structure TaskFm where
  taskTitle : String
  taskStatus : String
  taskDone : Bool
  created : String
  modified : String
  tags : List String
  todoistSync : Bool
  todoistSyncStatus : String
  todoistId : String
  todoistProjectId : String
  todoistProjectName : String
  todoistSectionId : String
  todoistSectionName : String
  todoistProjectLink : String
  todoistSectionLink : String
  todoistPriority : Nat
  todoistPriorityLabel : String
  todoistDue : DueVal
  todoistDueString : String
  todoistIsRecurring : Bool
  recurrence : Option String
  todoistDeadline : Option String
  todoistDescription : String
  todoistUrl : String
  todoistLabels : List String
  todoistParentId : String
  parentTask : String
  todoistPendingId : Option String
  todoistProjectTaskId : String
  todoistHasChildren : Bool
  todoistChildTaskCount : Nat
  todoistChildTasks : List String
  todoistLastImportedSignature : String
  todoistLastSyncedSignature : String
  todoistLastImportedAt : String
  completeInstances : List String
deriving Repr

/-- `sanitizeFileName` and the wikilink builder need `/\.md$/i`. -/
def stripMdExt (s : String) : String :=
  let cs := s.toList
  if 3 ≤ cs.length ∧ jsToLowerAscii ⟨cs.drop (cs.length - 3)⟩ = ".md" then
    ⟨cs.take (cs.length - 3)⟩
  else s

/-- `value.split(sep)` for a one-character separator. -/
def splitOnCharList (sep : Char) : List Char → List (List Char)
  | [] => [[]]
  | c :: rest =>
    let r := splitOnCharList sep rest
    if c = sep then [] :: r
    else
      match r with
      | h :: t => (c :: h) :: t
      | [] => [[c]]

/-- `toWikiLink(filePath)` from task-note-repository.ts:
`[[path-without-ext|last-segment]]`. -/
def toWikiLink (filePath : String) : String :=
  let pathWithoutExt := stripMdExt filePath
  let segs := splitOnCharList '/' pathWithoutExt.toList
  let lastSeg : String := ⟨segs.getLastD []⟩
  let displayText := if lastSeg = "" then pathWithoutExt else lastSeg
  "[[" ++ pathWithoutExt ++ "|" ++ displayText ++ "]]"

/-- `buildTodoistUrl(todoistId, settings)` from task-note-factory.ts. -/
def buildTodoistUrl (todoistId : String) (settings : TaskTodoistSettings) : String :=
  if settings.todoistLinkStyle = .app then "todoist://task?id=" ++ todoistId
  else "https://app.todoist.com/app/task/" ++ todoistId

/-- `priorityLabel(priority)` from task-frontmatter.ts. -/
def priorityLabel (priority : Nat) : String :=
  if priority = 4 then "High"
  else if priority = 3 then "Medium"
  else if priority = 2 then "Low"
  else if priority = 1 then "None"
  else "none"

/-- `normalizeTag`: trim and strip leading `#`s; `none` when blank. -/
def normalizeTag (value : String) : Option String :=
  let trimmed := jsTrim value
  if trimmed = "" then none else some ⟨trimmed.toList.dropWhile (· = '#')⟩

/-- `normalizeTags` on the stored tag list. -/
def normalizeTags (l : List String) : List String :=
  l.filterMap normalizeTag

/-- `applyStandardTaskFrontmatter(frontmatter, settings)` (task-frontmatter.ts):
backfill blank `created`/`modified`, and prepend the default task tag unless
the note is a dual-purpose project note. -/
def applyStandardTaskFrontmatter (settings : TaskTodoistSettings) (env : SyncEnv)
    (fm : TaskFm) : TaskFm :=
  -- The source mutates `frontmatter` in place field by field; the writes hit
  -- pairwise-distinct keys and every read is of an untouched key, so the
  -- sequence is rendered as one record update.
  let isDualPurpose :=
    jsTrim fm.todoistProjectTaskId ≠ "" ∧
    jsTrim fm.todoistProjectTaskId = jsTrim fm.todoistId
  { fm with
    created := if jsTrim fm.created = "" then env.nowCreated else fm.created
    modified := if jsTrim fm.modified = "" then env.nowModified else fm.modified
    tags :=
      if isDualPurpose then fm.tags
      else
        match normalizeTag settings.defaultTaskTag with
        | none => normalizeTags fm.tags
        | some defaultTag =>
          if defaultTag ∈ normalizeTags fm.tags then normalizeTags fm.tags
          else defaultTag :: normalizeTags fm.tags }

/-- Lexicographic comparison of code-unit lists (JavaScript `<`). -/
def ltUnits : List Nat → List Nat → Bool
  | [], [] => false
  | [], _ :: _ => true
  | _ :: _, [] => false
  | a :: as, b :: bs => a < b || (a == b && ltUnits as bs)

/-- JavaScript `a < b` on strings: lexicographic over UTF-16 code units. -/
def jsStrLt (a b : String) : Bool :=
  ltUnits (utf16Units a) (utf16Units b)

theorem ltUnits_self (l : List Nat) : ltUnits l l = false := by
  induction l with
  | nil => rfl
  | cons a as ih => simp [ltUnits, ih]

theorem jsStrLt_self (s : String) : jsStrLt s s = false :=
  ltUnits_self _

/-- `updateTaskFile(file, item, maps)` (task-note-repository.ts), restricted
to its effect on the frontmatter record (file relocation is handled by
separate vault primitives and is not part of claims C1/C7). -/
def updateTaskFileFm (settings : TaskTodoistSettings) (env : SyncEnv)
    (maps : ProjectSectionMaps) (item : TodoistItem) (fm : TaskFm) : TaskFm :=
  let remoteImportSignature := buildRemoteImportSignature item maps
  if fm.todoistLastImportedSignature = remoteImportSignature then
    -- Signature match: only refresh stale project/section wikilinks.
    let projectLink :=
      match lookupStr maps.projectFileById item.project_id with
      | some path => toWikiLink path
      | none => ""
    let sectionLink :=
      if optTruthy item.section_id then
        match lookupStr maps.sectionFileById (item.section_id.getD "") with
        | some path => toWikiLink path
        | none => ""
      else ""
    if projectLink ≠ fm.todoistProjectLink ∨ sectionLink ≠ fm.todoistSectionLink then
      { fm with todoistProjectLink := projectLink, todoistSectionLink := sectionLink }
    else fm
  else
    let projectName := (lookupStr maps.projectNameById item.project_id).getD "Unknown"
    let sectionName :=
      if optTruthy item.section_id then
        (lookupStr maps.sectionNameById (item.section_id.getD "")).getD ""
      else ""
    let projectLink :=
      match lookupStr maps.projectFileById item.project_id with
      | some path => toWikiLink path
      | none => ""
    let sectionLink :=
      if optTruthy item.section_id then
        match lookupStr maps.sectionFileById (item.section_id.getD "") with
        | some path => toWikiLink path
        | none => ""
      else ""
    let dueDate := (item.due.bind (·.date)).getD ""
    let deadlineDate := (item.deadline.bind (·.date)).getD ""
    let priority := item.priority.getD 1
    let recurrenceStr :=
      if (item.due.map (·.is_recurring)).getD false ∧ dueDate ≠ "" ∧
          optTruthy (item.due.bind (·.string)) then
        env.rruleOf ((item.due.bind (·.string)).getD "") dueDate
      else none
    let fm1 := applyStandardTaskFrontmatter settings env fm
    -- Always written: remote-owned metadata, pending-mark clearing, stamp.
    let fm2 := { fm1 with
      todoistSync := true
      todoistId := item.id
      todoistProjectId := item.project_id
      todoistProjectName := projectName
      todoistSectionId := item.section_id.getD ""
      todoistSectionName := sectionName
      todoistProjectLink := projectLink
      todoistSectionLink := sectionLink
      todoistLabels := item.labels.getD []
      todoistParentId := item.parent_id.getD ""
      parentTask := if optTruthy item.parent_id then fm1.parentTask else ""
      todoistUrl := buildTodoistUrl item.id settings
      todoistPendingId := none
      todoistLastImportedAt := env.nowIso }
    if fm.todoistSyncStatus = "dirty_local" ∧
        settings.conflictResolution = ConflictResolution.localWins then
      -- Local wins: preserve user-editable fields, refresh the import signature.
      { fm2 with todoistLastImportedSignature := remoteImportSignature }
    else
      -- Remote wins (or no local changes): apply all remote fields.
      let fm3 := { fm2 with
        modified := env.nowModified
        taskTitle := item.content
        taskStatus := if item.checked then "Done" else "Open"
        taskDone := item.checked
        todoistPriority := priority
        todoistPriorityLabel := priorityLabel priority }
      let oldDue :=
        match fm3.todoistDue with
        | .str s => jsTrim s
        | .date d => d
        | .other => ""
      let completeInstances :=
        if (item.due.map (·.is_recurring)).getD false ∧ dueDate ≠ "" ∧
            oldDue ≠ "" ∧ oldDue ≠ dueDate ∧ jsStrLt oldDue dueDate then
          if oldDue ∈ fm3.completeInstances then fm3.completeInstances
          else fm3.completeInstances ++ [oldDue]
        else fm3.completeInstances
      let recurrence :=
        if ¬ (item.due.map (·.is_recurring)).getD false then none
        else if ¬ optTruthy fm3.recurrence then recurrenceStr
        else fm3.recurrence
      { fm3 with
        completeInstances := completeInstances
        todoistDue := DueVal.str dueDate
        todoistDueString := (item.due.bind (·.string)).getD ""
        todoistIsRecurring := (item.due.map (·.is_recurring)).getD false
        recurrence := recurrence
        todoistDeadline := if deadlineDate = "" then none else some deadlineDate
        todoistDescription := (item.description.map jsTrim).getD ""
        todoistLastImportedSignature := remoteImportSignature
        todoistLastSyncedSignature := buildTodoistSyncSignature {
          title := item.content
          description := (item.description.map jsTrim).getD ""
          isDone := item.checked
          isRecurring := (item.due.map (·.is_recurring)).getD false
          projectId := some item.project_id
          sectionId := item.section_id
          dueDate := some dueDate
          dueString := some ((item.due.bind (·.string)).getD "") }
        todoistSyncStatus := "synced" }

/-- C1: when a remote task is upserted into an existing note whose
`sync_status` is `dirty_local` under the local-wins policy (and the
remote-import fingerprint differs from the stored one), the update writes
the remote-owned metadata — project id and name, section id and name,
project/section wikilinks, labels, parent-task id, URL — and sets
`last_imported_fingerprint` to the new remote-import fingerprint, while the
user-editable fields (title, status/done, priority, due date, due string,
description) keep exactly their previous values. -/
theorem C1_local_wins_frame (settings : TaskTodoistSettings) (env : SyncEnv)
    (maps : ProjectSectionMaps) (item : TodoistItem) (fm : TaskFm)
    (h1 : fm.todoistLastImportedSignature ≠ buildRemoteImportSignature item maps)
    (h2 : fm.todoistSyncStatus = "dirty_local")
    (h3 : settings.conflictResolution = ConflictResolution.localWins) :
    (updateTaskFileFm settings env maps item fm).todoistProjectId = item.project_id ∧
    (updateTaskFileFm settings env maps item fm).todoistProjectName =
      (lookupStr maps.projectNameById item.project_id).getD "Unknown" ∧
    (updateTaskFileFm settings env maps item fm).todoistSectionId = item.section_id.getD "" ∧
    (updateTaskFileFm settings env maps item fm).todoistSectionName =
      (if optTruthy item.section_id then
        (lookupStr maps.sectionNameById (item.section_id.getD "")).getD ""
      else "") ∧
    (updateTaskFileFm settings env maps item fm).todoistProjectLink =
      (match lookupStr maps.projectFileById item.project_id with
       | some path => toWikiLink path
       | none => "") ∧
    (updateTaskFileFm settings env maps item fm).todoistSectionLink =
      (if optTruthy item.section_id then
        match lookupStr maps.sectionFileById (item.section_id.getD "") with
        | some path => toWikiLink path
        | none => ""
      else "") ∧
    (updateTaskFileFm settings env maps item fm).todoistLabels = item.labels.getD [] ∧
    (updateTaskFileFm settings env maps item fm).todoistParentId = item.parent_id.getD "" ∧
    (updateTaskFileFm settings env maps item fm).todoistUrl = buildTodoistUrl item.id settings ∧
    (updateTaskFileFm settings env maps item fm).todoistLastImportedSignature =
      buildRemoteImportSignature item maps ∧
    (updateTaskFileFm settings env maps item fm).taskTitle = fm.taskTitle ∧
    (updateTaskFileFm settings env maps item fm).taskStatus = fm.taskStatus ∧
    (updateTaskFileFm settings env maps item fm).taskDone = fm.taskDone ∧
    (updateTaskFileFm settings env maps item fm).todoistPriority = fm.todoistPriority ∧
    (updateTaskFileFm settings env maps item fm).todoistDue = fm.todoistDue ∧
    (updateTaskFileFm settings env maps item fm).todoistDueString = fm.todoistDueString ∧
    (updateTaskFileFm settings env maps item fm).todoistDescription = fm.todoistDescription := by
  unfold updateTaskFileFm
  rw [if_neg h1, if_pos ⟨h2, h3⟩]
  exact ⟨rfl, rfl, rfl, rfl, rfl, rfl, rfl, rfl, rfl, rfl, rfl, rfl, rfl, rfl, rfl, rfl, rfl⟩

/-- Fixture for the C1 witness: the conflict scenario of spec §8 example 3
(local edit `Call mom!`, `dirty_local`, remote moves the task into section
S7). -/
def c1Settings : TaskTodoistSettings :=
  { conflictResolution := .localWins, todoistLinkStyle := .web, defaultTaskTag := "tasks" }

/-- Fixture clock/recurrence environment for the C1 and C7 witnesses. -/
def c1Env : SyncEnv :=
  { nowCreated := "2026-01-01", nowModified := "2026-01-01T09:00",
    nowIso := "2026-01-01T09:00:00.000Z", rruleOf := fun _ _ => none }

/-- Fixture snapshot maps for the C1 witness. -/
def c1Maps : ProjectSectionMaps :=
  { projectNameById := [("P1", "Personal")], sectionNameById := [("S7", "Errands")],
    projectFileById := [("P1", "Tasks/Personal.md")], sectionFileById := [] }

/-- Fixture remote item for the C1 witness. -/
def c1Item : TodoistItem :=
  { id := "A3", content := "Call mom", description := none, checked := false,
    project_id := "P1", section_id := some "S7", parent_id := none,
    priority := some 1, due := none, deadline := none, labels := none,
    is_deleted := false }

/-- Fixture local note for the C1 witness: locally retitled and dirty. -/
def c1Fm : TaskFm :=
  { taskTitle := "Call mom!", taskStatus := "Open", taskDone := false,
    created := "2025-12-01", modified := "2025-12-02T08:00", tags := ["tasks"],
    todoistSync := true, todoistSyncStatus := "dirty_local", todoistId := "A3",
    todoistProjectId := "P1", todoistProjectName := "Personal",
    todoistSectionId := "", todoistSectionName := "",
    todoistProjectLink := "", todoistSectionLink := "", todoistPriority := 1,
    todoistPriorityLabel := "None", todoistDue := .str "", todoistDueString := "",
    todoistIsRecurring := false, recurrence := none, todoistDeadline := none,
    todoistDescription := "", todoistUrl := "", todoistLabels := [],
    todoistParentId := "", parentTask := "", todoistPendingId := none,
    todoistProjectTaskId := "", todoistHasChildren := false,
    todoistChildTaskCount := 0, todoistChildTasks := [],
    todoistLastImportedSignature := "00000000",
    todoistLastSyncedSignature := "", todoistLastImportedAt := "",
    completeInstances := [] }

set_option maxRecDepth 400000 in
/-- C1 witness: on the spec §8 example-3 fixture, the upsert adopts the
remote section id but keeps the locally edited title and status. -/
theorem C1_witness :
    (updateTaskFileFm c1Settings c1Env c1Maps c1Item c1Fm).todoistSectionId = "S7" ∧
    (updateTaskFileFm c1Settings c1Env c1Maps c1Item c1Fm).taskTitle = "Call mom!" ∧
    (updateTaskFileFm c1Settings c1Env c1Maps c1Item c1Fm).taskStatus = "Open" := by
  have h := C1_local_wins_frame c1Settings c1Env c1Maps c1Item c1Fm (by decide) rfl rfl
  exact ⟨h.2.2.1, h.2.2.2.2.2.2.2.2.2.2.1, h.2.2.2.2.2.2.2.2.2.2.2.1⟩

/-- The stored due date as read by the recurring-completion check
(`data[p.todoistDue]`: string → trimmed, Date → its ISO day, else `''`). -/
def storedDueOf (fm : TaskFm) : String :=
  match fm.todoistDue with
  | .str s => jsTrim s
  | .date d => d
  | .other => ""

/-- The remote item's due date (`item.due?.date ?? ''`). -/
def remoteDueDateOf (item : TodoistItem) : String :=
  (item.due.bind (·.date)).getD ""

/-- C7: on a recurring note whose remote due date strictly exceeds the
stored due date (both ISO `YYYY-MM-DD`, compared lexicographically, which on
ISO dates is chronological), the upsert appends the old stored due date to
`complete_instances` (unless already recorded) before overwriting the due
date; a second run of the engine against the unchanged remote appends
nothing further, so a previously unrecorded occurrence date appears in
`complete_instances` exactly once. -/
theorem C7_recurring_completion_append_once (settings : TaskTodoistSettings)
    (env : SyncEnv) (maps : ProjectSectionMaps) (item : TodoistItem) (fm : TaskFm)
    (hsig : fm.todoistLastImportedSignature ≠ buildRemoteImportSignature item maps)
    (hpol : ¬(fm.todoistSyncStatus = "dirty_local" ∧
      settings.conflictResolution = ConflictResolution.localWins))
    (hrec : (item.due.map (·.is_recurring)).getD false = true)
    (hd : remoteDueDateOf item ≠ "")
    (hold : storedDueOf fm ≠ "")
    (hlt : jsStrLt (storedDueOf fm) (remoteDueDateOf item) = true) :
    (updateTaskFileFm settings env maps item fm).completeInstances =
      (if storedDueOf fm ∈ fm.completeInstances then fm.completeInstances
       else fm.completeInstances ++ [storedDueOf fm]) ∧
    (updateTaskFileFm settings env maps item fm).todoistDue =
      DueVal.str (remoteDueDateOf item) ∧
    (∀ env2 : SyncEnv,
      (updateTaskFileFm settings env2 maps item
          (updateTaskFileFm settings env maps item fm)).completeInstances =
        (updateTaskFileFm settings env maps item fm).completeInstances) ∧
    (storedDueOf fm ∉ fm.completeInstances → ∀ env2 : SyncEnv,
      ((updateTaskFileFm settings env2 maps item
          (updateTaskFileFm settings env maps item fm)).completeInstances).count
        (storedDueOf fm) = 1) := by
  have hne : storedDueOf fm ≠ remoteDueDateOf item := by
    intro heq
    rw [heq, jsStrLt_self] at hlt
    exact Bool.false_ne_true hlt
  have hfirst :
      (updateTaskFileFm settings env maps item fm).completeInstances =
        (if storedDueOf fm ∈ fm.completeInstances then fm.completeInstances
         else fm.completeInstances ++ [storedDueOf fm]) := by
    unfold updateTaskFileFm
    rw [if_neg hsig, if_neg hpol]
    show (if ((item.due.map (·.is_recurring)).getD false : Bool) ∧
            remoteDueDateOf item ≠ "" ∧ storedDueOf fm ≠ "" ∧
            storedDueOf fm ≠ remoteDueDateOf item ∧
            jsStrLt (storedDueOf fm) (remoteDueDateOf item) = true then
          if storedDueOf fm ∈ fm.completeInstances then fm.completeInstances
          else fm.completeInstances ++ [storedDueOf fm]
        else fm.completeInstances) = _
    rw [if_pos ⟨hrec, hd, hold, hne, hlt⟩]
  have hsecond : ∀ env2 : SyncEnv,
      (updateTaskFileFm settings env2 maps item
          (updateTaskFileFm settings env maps item fm)).completeInstances =
        (updateTaskFileFm settings env maps item fm).completeInstances := by
    intro env2
    have hsig2 :
        (updateTaskFileFm settings env maps item fm).todoistLastImportedSignature =
          buildRemoteImportSignature item maps := by
      unfold updateTaskFileFm
      rw [if_neg hsig, if_neg hpol]
    conv_lhs => rw [updateTaskFileFm]
    rw [if_pos hsig2, apply_ite TaskFm.completeInstances]
    dsimp only
    rw [ite_self]
  refine ⟨hfirst, ?_, hsecond, ?_⟩
  · unfold updateTaskFileFm
    rw [if_neg hsig, if_neg hpol]
    rfl
  · intro hmem env2
    rw [hsecond env2, hfirst, if_neg hmem, List.count_append]
    have hz : fm.completeInstances.count (storedDueOf fm) = 0 :=
      List.count_eq_zero.mpr hmem
    simp [hz]

/-- Fixture remote item for the C7 witness (spec §8 example 4): a recurring
task whose remote due advanced to 2026-03-09. -/
def c7Item : TodoistItem :=
  { id := "A5", content := "Water plants", description := none, checked := false,
    project_id := "P1", section_id := none, parent_id := none,
    priority := some 1,
    due := some { date := some "2026-03-09", string := some "every week",
                  is_recurring := true },
    deadline := none, labels := none, is_deleted := false }

/-- Fixture note for the C7 witness: synced, recurring, due 2026-03-02,
no completions recorded. -/
def c7Fm : TaskFm :=
  { taskTitle := "Water plants", taskStatus := "Open", taskDone := false,
    created := "2025-12-01", modified := "2025-12-02T08:00", tags := ["tasks"],
    todoistSync := true, todoistSyncStatus := "synced", todoistId := "A5",
    todoistProjectId := "P1", todoistProjectName := "Personal",
    todoistSectionId := "", todoistSectionName := "",
    todoistProjectLink := "", todoistSectionLink := "", todoistPriority := 1,
    todoistPriorityLabel := "None", todoistDue := .str "2026-03-02",
    todoistDueString := "every week", todoistIsRecurring := true,
    recurrence := some "DTSTART:20260302;FREQ=WEEKLY;INTERVAL=1",
    todoistDeadline := none, todoistDescription := "", todoistUrl := "",
    todoistLabels := [], todoistParentId := "", parentTask := "",
    todoistPendingId := none, todoistProjectTaskId := "",
    todoistHasChildren := false, todoistChildTaskCount := 0,
    todoistChildTasks := [], todoistLastImportedSignature := "00000000",
    todoistLastSyncedSignature := "", todoistLastImportedAt := "",
    completeInstances := [] }

set_option maxRecDepth 400000 in
/-- C7 witness: on the spec §8 example-4 fixture, the first run appends
2026-03-02 to `complete_instances` and overwrites the due date; after a
second run against the unchanged remote the date still appears exactly
once. -/
theorem C7_witness :
    (updateTaskFileFm c1Settings c1Env c1Maps c7Item c7Fm).completeInstances =
      ["2026-03-02"] ∧
    (updateTaskFileFm c1Settings c1Env c1Maps c7Item c7Fm).todoistDue =
      DueVal.str "2026-03-09" ∧
    ((updateTaskFileFm c1Settings c1Env c1Maps c7Item
        (updateTaskFileFm c1Settings c1Env c1Maps c7Item c7Fm)).completeInstances).count
      "2026-03-02" = 1 := by
  have h := C7_recurring_completion_append_once c1Settings c1Env c1Maps c7Item c7Fm
    (by decide) (by decide) (by decide) (by decide) (by decide) (by decide)
  have hs : storedDueOf c7Fm = "2026-03-02" := by decide
  refine ⟨?_, ?_, ?_⟩
  · rw [h.1]
    decide
  · rw [h.2.1]
    decide
  · have h4 := h.2.2.2 (by decide) c1Env
    rw [← hs]
    exact h4

/-! ## The vault index builder (`buildVaultIndexes`, C4)

A single pass over all markdown files, producing the task/project/section/
vault-id indexes and the duplicate-ID set.  Files are `(path, frontmatter)`
pairs, frontmatter the raw dynamic values of the six keys the pass reads
(under the default property names, with the legacy `section_id`/`project_id`
dual-read keys). -/

/-- The frontmatter keys the index pass reads. -/
structure VaultFileFm where
  todoist_id : Option FmValue
  todoist_section_id : Option FmValue
  legacy_section_id : Option FmValue
  todoist_project_id : Option FmValue
  legacy_project_id : Option FmValue
  vault_id : Option FmValue
deriving DecidableEq, Repr

/-- A markdown file as seen by the pass (`fm = none`: no cached frontmatter). -/
structure VaultFile where
  path : String
  fm : Option VaultFileFm
deriving DecidableEq, Repr

/-- The task-ID extraction of the pass: a non-blank string is trimmed, a
number is stringified, anything else yields no ID. -/
def extractTaskId (fm : VaultFileFm) : Option String :=
  match fm.todoist_id with
  | some (.str s) => if jsTrim s ≠ "" then some (jsTrim s) else none
  | some (.num n) => some (toString n)
  | _ => none

/-- The task ID a file is indexed under, if any. -/
def fileTaskId (f : VaultFile) : Option String :=
  f.fm.bind extractTaskId

/-- `a ?? b` (nullish coalescing) on raw frontmatter values. -/
def nullishCoalesce (a b : Option FmValue) : Option FmValue :=
  match a with
  | none => b
  | some .null => b
  | some v => some v

/-- `typeof v === 'string' && v.trim()`, yielding the trimmed string. -/
def strTrimNonempty (v : Option FmValue) : Option String :=
  match v with
  | some (.str s) => if jsTrim s = "" then none else some (jsTrim s)
  | _ => none

/-- `Map.set` on an id-keyed assoc map: replace in place, else append. -/
def mapSet (m : List (String × VaultFile)) (k : String) (v : VaultFile) :
    List (String × VaultFile) :=
  if m.any (fun e => e.1 == k) then
    m.map (fun e => if e.1 == k then (k, v) else e)
  else m ++ [(k, v)]

/-- `Map.get` on an id-keyed assoc map of files. -/
def findEntry (m : List (String × VaultFile)) (k : String) : Option VaultFile :=
  (m.find? (fun e => e.1 == k)).map (·.2)

/-- `Set.add` (insertion-ordered, idempotent). -/
def setAdd (s : List String) (x : String) : List String :=
  if s.contains x then s else s ++ [x]

/-- The four indexes plus the duplicate-ID set. -/
structure VaultIndexes where
  taskIndex : List (String × VaultFile)
  projectIndex : List (String × VaultFile)
  sectionIndex : List (String × VaultFile)
  vaultIdIndex : List (String × VaultFile)
  duplicateTaskIds : List String
deriving DecidableEq, Repr

/-- One loop iteration of `buildVaultIndexes`: index by task ID (first seen
wins, later carriers go to the duplicate set); a note without task ID goes
to the section index when it carries a section ID (dual-read with the
legacy key), else to the project index when it carries a project ID; every
note with a `vault_id` also enters the vault-ID index. -/
def indexStep (acc : VaultIndexes) (file : VaultFile) : VaultIndexes :=
  match file.fm with
  | none => acc
  | some fm =>
    let taskId := extractTaskId fm
    let taskIndex :=
      match taskId with
      | some tid =>
        if (findEntry acc.taskIndex tid).isSome then acc.taskIndex
        else mapSet acc.taskIndex tid file
      | none => acc.taskIndex
    let duplicateTaskIds :=
      match taskId with
      | some tid =>
        if (findEntry acc.taskIndex tid).isSome then setAdd acc.duplicateTaskIds tid
        else acc.duplicateTaskIds
      | none => acc.duplicateTaskIds
    let sectionIdVal := strTrimNonempty (nullishCoalesce fm.todoist_section_id fm.legacy_section_id)
    let sectionIndex :=
      if taskId = none then
        match sectionIdVal with
        | some sid => mapSet acc.sectionIndex sid file
        | none => acc.sectionIndex
      else acc.sectionIndex
    let projectIndex :=
      if taskId = none ∧ sectionIdVal = none then
        match strTrimNonempty (nullishCoalesce fm.todoist_project_id fm.legacy_project_id) with
        | some pid => mapSet acc.projectIndex pid file
        | none => acc.projectIndex
      else acc.projectIndex
    let vaultIdIndex :=
      match strTrimNonempty fm.vault_id with
      | some vid => mapSet acc.vaultIdIndex vid file
      | none => acc.vaultIdIndex
    ⟨taskIndex, projectIndex, sectionIndex, vaultIdIndex, duplicateTaskIds⟩

/-- `buildVaultIndexes()` over the vault's markdown file list. -/
def buildVaultIndexes (files : List VaultFile) : VaultIndexes :=
  files.foldl indexStep ⟨[], [], [], [], []⟩

/-- `emitDuplicateIdWarnings(dupes)`: the number of user-visible warnings it
raises for the run — none when the set is empty, one `Notice` otherwise. -/
def emitDuplicateIdWarnings (dupes : List String) : Nat :=
  if dupes.isEmpty then 0 else 1

theorem findEntry_append (a b : List (String × VaultFile)) (k : String) :
    findEntry (a ++ b) k =
      match findEntry a k with
      | some v => some v
      | none => findEntry b k := by
  induction a with
  | nil => simp [findEntry]
  | cons e rest ih =>
    by_cases h : e.1 = k
    · simp [findEntry, List.find?_cons, h]
    · simpa [findEntry, List.find?_cons, h] using ih

theorem findEntry_isSome_eq_any (m : List (String × VaultFile)) (k : String) :
    (m.any fun e => e.1 == k) = (findEntry m k).isSome := by
  induction m with
  | nil => simp [findEntry]
  | cons e rest ih =>
    by_cases h : e.1 = k
    · simp [findEntry, List.find?_cons, h]
    · have hb : (e.1 == k) = false := beq_eq_false_iff_ne.mpr h
      simpa [findEntry, List.find?_cons, hb] using ih

theorem mapSet_of_none {m : List (String × VaultFile)} {k : String}
    (v : VaultFile) (hnone : findEntry m k = none) :
    mapSet m k v = m ++ [(k, v)] := by
  unfold mapSet
  rw [findEntry_isSome_eq_any, hnone]
  rfl

theorem findEntry_singleton (k id : String) (v : VaultFile) :
    findEntry [(k, v)] id = if k = id then some v else none := by
  by_cases h : k = id <;> simp [findEntry, List.find?_cons, h]

theorem indexStep_taskIndex (acc : VaultIndexes) (f : VaultFile) (id : String) :
    findEntry (indexStep acc f).taskIndex id =
      match findEntry acc.taskIndex id with
      | some v => some v
      | none => if fileTaskId f = some id then some f else none := by
  cases hfm : f.fm with
  | none =>
    simp only [indexStep, hfm, fileTaskId, Option.bind]
    cases h : findEntry acc.taskIndex id <;> simp [h]
  | some fm =>
    have hft : fileTaskId f = extractTaskId fm := by simp [fileTaskId, hfm]
    simp only [indexStep, hfm, hft]
    cases ht : extractTaskId fm with
    | none =>
      cases h : findEntry acc.taskIndex id <;> simp [h]
    | some tid =>
      cases hs : findEntry acc.taskIndex tid with
      | some v =>
        simp only [hs, Option.isSome_some, if_true]
        cases h : findEntry acc.taskIndex id with
        | some w => simp [h]
        | none =>
          by_cases hid : tid = id
          · subst hid
            rw [hs] at h
            cases h
          · simp [h, hid]
      | none =>
        simp only [hs, Option.isSome_none, Bool.false_eq_true, if_false]
        rw [mapSet_of_none f hs, findEntry_append]
        cases h : findEntry acc.taskIndex id with
        | some w => simp [h]
        | none =>
          by_cases hid : tid = id
          · subst hid
            simp [h, findEntry_singleton]
          · simp [h, findEntry_singleton, hid]

theorem mem_setAdd {s : List String} {x id : String} :
    id ∈ setAdd s x ↔ id ∈ s ∨ id = x := by
  unfold setAdd
  split
  · rename_i h
    constructor
    · exact Or.inl
    · rintro (h1 | rfl)
      · exact h1
      · simpa using h
  · simp

theorem indexStep_dupes (acc : VaultIndexes) (f : VaultFile) (id : String) :
    id ∈ (indexStep acc f).duplicateTaskIds ↔
      (id ∈ acc.duplicateTaskIds ∨
        ((findEntry acc.taskIndex id).isSome ∧ fileTaskId f = some id)) := by
  cases hfm : f.fm with
  | none =>
    simp [indexStep, hfm, fileTaskId, Option.bind]
  | some fm =>
    have hft : fileTaskId f = extractTaskId fm := by simp [fileTaskId, hfm]
    simp only [indexStep, hfm, hft]
    cases ht : extractTaskId fm with
    | none => simp
    | some tid =>
      cases hs : findEntry acc.taskIndex tid with
      | some v =>
        simp only [hs, Option.isSome_some, if_true]
        rw [mem_setAdd]
        by_cases hid : id = tid
        · subst hid
          simp [hs]
        · have hid2 : tid ≠ id := fun h => hid h.symm
          simp [hid, hid2]
      | none =>
        simp only [hs, Option.isSome_none, Bool.false_eq_true, if_false]
        by_cases hid : tid = id
        · subst hid
          simp [hs]
        · simp [hid]

theorem foldl_taskIndex (files : List VaultFile) (acc : VaultIndexes) (id : String) :
    findEntry (files.foldl indexStep acc).taskIndex id =
      match findEntry acc.taskIndex id with
      | some v => some v
      | none => files.find? (fun f => fileTaskId f == some id) := by
  induction files generalizing acc with
  | nil => cases h : findEntry acc.taskIndex id <;> simp [h]
  | cons f rest ih =>
    simp only [List.foldl_cons]
    rw [ih (indexStep acc f), indexStep_taskIndex]
    cases h : findEntry acc.taskIndex id with
    | some v => simp [h]
    | none =>
      by_cases hf : fileTaskId f = some id
      · have hb : (fileTaskId f == some id) = true := by simp [hf]
        simp [h, hf, List.find?_cons, hb]
      · have hb : (fileTaskId f == some id) = false := by simp [hf]
        simp [h, hf, List.find?_cons, hb]

theorem foldl_dupes (files : List VaultFile) (acc : VaultIndexes) (id : String) :
    id ∈ (files.foldl indexStep acc).duplicateTaskIds ↔
      (id ∈ acc.duplicateTaskIds ∨
        ((findEntry acc.taskIndex id).isSome ∧
          1 ≤ files.countP (fun f => fileTaskId f == some id)) ∨
        2 ≤ files.countP (fun f => fileTaskId f == some id)) := by
  induction files generalizing acc with
  | nil => simp
  | cons f rest ih =>
    simp only [List.foldl_cons]
    rw [ih (indexStep acc f), indexStep_dupes]
    have hstep := indexStep_taskIndex acc f id
    by_cases hf : fileTaskId f = some id
    · have hb : (fileTaskId f == some id) = true := by simp [hf]
      have hSome : (findEntry (indexStep acc f).taskIndex id).isSome = true := by
        rw [hstep]
        cases h : findEntry acc.taskIndex id <;> simp [h, hf]
      have hc : List.countP (fun g => fileTaskId g == some id) (f :: rest) =
          List.countP (fun g => fileTaskId g == some id) rest + 1 := by
        simp [List.countP_cons, hb]
      rw [hc, hSome, hf]
      constructor
      · rintro ((hd | ⟨hsome, _⟩) | (⟨_, hcnt⟩ | hcnt))
        · exact Or.inl hd
        · exact Or.inr (Or.inl ⟨hsome, by omega⟩)
        · exact Or.inr (Or.inr (by omega))
        · exact Or.inr (Or.inr (by omega))
      · rintro (hd | (⟨hsome, _⟩ | hcnt))
        · exact Or.inl (Or.inl hd)
        · exact Or.inl (Or.inr ⟨hsome, rfl⟩)
        · exact Or.inr (Or.inl ⟨rfl, by omega⟩)
    · have hb : (fileTaskId f == some id) = false := by simp [hf]
      have hEq : (findEntry (indexStep acc f).taskIndex id).isSome =
          (findEntry acc.taskIndex id).isSome := by
        rw [hstep]
        cases h : findEntry acc.taskIndex id <;> simp [h, hf]
      have hc : List.countP (fun g => fileTaskId g == some id) (f :: rest) =
          List.countP (fun g => fileTaskId g == some id) rest := by
        simp [List.countP_cons, hb]
      rw [hc, hEq]
      simp [hf]

/-- C4: after the vault index is built, every non-empty remote task ID maps
to exactly one primary file — the first file in scan order carrying that ID
(the assoc lookup returns exactly the first carrier, or nothing) — each
additional carrier puts the ID into the duplicate set instead of replacing
the primary entry, and a non-empty duplicate set produces exactly one
user-visible warning for the run (zero otherwise). -/
theorem C4_task_index_first_seen_wins (files : List VaultFile) :
    (∀ id : String,
      findEntry (buildVaultIndexes files).taskIndex id =
        files.find? (fun f => fileTaskId f == some id)) ∧
    (∀ id : String,
      id ∈ (buildVaultIndexes files).duplicateTaskIds ↔
        2 ≤ files.countP (fun f => fileTaskId f == some id)) ∧
    (emitDuplicateIdWarnings (buildVaultIndexes files).duplicateTaskIds = 1 ↔
      ∃ id : String, 2 ≤ files.countP (fun f => fileTaskId f == some id)) ∧
    (emitDuplicateIdWarnings (buildVaultIndexes files).duplicateTaskIds = 0 ∨
      emitDuplicateIdWarnings (buildVaultIndexes files).duplicateTaskIds = 1) := by
  have h1 : ∀ id : String,
      findEntry (buildVaultIndexes files).taskIndex id =
        files.find? (fun f => fileTaskId f == some id) := by
    intro id
    have h := foldl_taskIndex files ⟨[], [], [], [], []⟩ id
    simpa [buildVaultIndexes, findEntry] using h
  have h2 : ∀ id : String,
      id ∈ (buildVaultIndexes files).duplicateTaskIds ↔
        2 ≤ files.countP (fun f => fileTaskId f == some id) := by
    intro id
    have h := foldl_dupes files ⟨[], [], [], [], []⟩ id
    simpa [buildVaultIndexes, findEntry] using h
  refine ⟨h1, h2, ?_, ?_⟩
  · constructor
    · intro hemit
      have hne : (buildVaultIndexes files).duplicateTaskIds ≠ [] := by
        intro hnil
        simp [emitDuplicateIdWarnings, hnil] at hemit
      obtain ⟨id, hid⟩ := List.exists_mem_of_ne_nil _ hne
      exact ⟨id, (h2 id).mp hid⟩
    · rintro ⟨id, hcnt⟩
      have hid := (h2 id).mpr hcnt
      have hne : ¬ (buildVaultIndexes files).duplicateTaskIds.isEmpty = true := by
        rw [List.isEmpty_iff]
        intro hnil
        rw [hnil] at hid
        cases hid
      simp [emitDuplicateIdWarnings, hne]
  · unfold emitDuplicateIdWarnings
    split
    · exact Or.inl rfl
    · exact Or.inr rfl

/-! ## The pending-local-create scan (`listPendingLocalCreates`, C6) -/

/-- The frontmatter keys the scan reads to decide whether a note qualifies. -/
structure PendingScanFm where
  todoist_sync : Option FmValue
  todoist_id : Option FmValue
  todoist_pending_id : Option FmValue
  task_title : Option FmValue
  title : Option FmValue
deriving DecidableEq, Repr

/-- A markdown file as seen by the scan. -/
structure PendingNote where
  path : String
  basename : String
  fm : Option PendingScanFm
deriving DecidableEq, Repr

/-- `isTruthy(value)`: `value === true || value === 'true'`. -/
def isTruthy (v : Option FmValue) : Bool :=
  v == some (.bool true) || v == some (.str "true")

/-- `pre` is a prefix of `s` (`String.prototype.startsWith`). -/
def strStartsWith (s pre : String) : Bool :=
  pre.toList.isPrefixOf s.toList

/-- The scan's folder filter: the file path equals the resolved tasks folder
or lies under it. -/
def inTasksFolder (folder : String) (note : PendingNote) : Bool :=
  note.path == folder || strStartsWith note.path (folder ++ "/")

/-- `getTaskTitle(frontmatter, settings, fallback)` (task-frontmatter.ts):
the configured title key, then the legacy `title` key, then the fallback
(the file basename at this call site). -/
def getTaskTitleFm (fm : PendingScanFm) (fallback : String) : String :=
  let taskTitle := match fm.task_title with
    | some (.str s) => jsTrim s
    | _ => ""
  if taskTitle ≠ "" then taskTitle
  else
    let legacyTitle := match fm.title with
      | some (.str s) => jsTrim s
      | _ => ""
    if legacyTitle ≠ "" then legacyTitle else fallback

/-- The remote-ID extraction of the scan: string → trimmed, number →
stringified, anything else → `''`. -/
def extractRawTodoistId (v : Option FmValue) : String :=
  match v with
  | some (.str s) => jsTrim s
  | some (.num n) => toString n
  | _ => ""

/-- The qualification test of `listPendingLocalCreates`
(task-note-repository.ts), as the chain of `continue` guards: in the tasks
folder, has frontmatter, sync flag truthy, no remote ID, no *string*
pending ID, and a non-empty effective title. -/
def pendingLocalCreateAccepts (folder : String) (note : PendingNote) : Bool :=
  if note.path == folder || strStartsWith note.path (folder ++ "/") then
    match note.fm with
    | none => false
    | some fm =>
      if isTruthy fm.todoist_sync && extractRawTodoistId fm.todoist_id == "" then
        if (match fm.todoist_pending_id with
            | some (.str s) => jsTrim s != ""
            | _ => false) then false
        else jsTrim (getTaskTitleFm fm note.basename) != ""
      else false
  else false

/-- `listPendingLocalCreates()`, restricted to which notes it returns (the
rest of the loop body only assembles the payload and never rejects). -/
def listPendingLocalCreates (folder : String) (notes : List PendingNote) : List PendingNote :=
  notes.filter (pendingLocalCreateAccepts folder)

/-- Modelled from the spec (claim C6 as stated): `pending_remote_id` is
*empty* — absent, null, or a blank string; any other value (e.g. a YAML
number) is non-empty. -/
def specPendingEmpty (v : Option FmValue) : Bool :=
  match v with
  | none => true
  | some .null => true
  | some (.str s) => jsTrim s == ""
  | _ => false

/-- Modelled from the spec (claim C6 as stated): "its task title" — the
title stored in the note's frontmatter (the configured title key, with the
legacy `title`-key fallback of §4.3), without the file-name fallback the
code's getter adds. -/
def specTaskTitle (fm : PendingScanFm) : String :=
  getTaskTitleFm fm ""

/-- Modelled from the spec (claim C6 as stated): the qualification
predicate — sync flag true, remote ID empty, pending ID empty, task title
non-empty. -/
def specQualifies (note : PendingNote) : Bool :=
  match note.fm with
  | none => false
  | some fm =>
    isTruthy fm.todoist_sync &&
    extractRawTodoistId fm.todoist_id == "" &&
    specPendingEmpty fm.todoist_pending_id &&
    jsTrim (specTaskTitle fm) != ""

/-- The code's pending-ID guard only fires on a non-blank *string* value;
a non-string value (e.g. a YAML number) is treated as empty. -/
def amendedPendingEmpty (v : Option FmValue) : Bool :=
  match v with
  | some (.str s) => jsTrim s == ""
  | _ => true

/-- The qualification predicate as amended for claim C6. -/
def amendedQualifies (note : PendingNote) : Bool :=
  match note.fm with
  | none => false
  | some fm =>
    isTruthy fm.todoist_sync &&
    extractRawTodoistId fm.todoist_id == "" &&
    amendedPendingEmpty fm.todoist_pending_id &&
    jsTrim (getTaskTitleFm fm note.basename) != ""

/-- A note in the tasks folder whose `pending_remote_id` is the YAML number
42 (e.g. a hand-edited, unquoted pending mark). -/
def c6Note : PendingNote :=
  ⟨"Tasks/x.md", "x",
    some ⟨some (.bool true), none, some (.num 42), some (.str "x"), none⟩⟩

/-- A sync-flagged note in the tasks folder with no stored title at all
(neither the configured title key nor the legacy `title` key): its only
title is the file basename. -/
def c6NoteB : PendingNote :=
  ⟨"Tasks/Untitled.md", "Untitled",
    some ⟨some (.bool true), none, none, none, none⟩⟩

/-- C6 counterexample: two notes the code returns although the claim as
stated says neither qualifies — `c6Note` has a non-empty (numeric)
`pending_remote_id`, but the scan's pending guard only tests string
values; `c6NoteB` has an empty task title, but the scan's title getter
falls back to the file basename. -/
theorem C6_pending_scan_counterexample :
    (inTasksFolder "Tasks" c6Note = true ∧
      c6Note ∈ listPendingLocalCreates "Tasks" [c6Note] ∧
      specQualifies c6Note = false) ∧
    (inTasksFolder "Tasks" c6NoteB = true ∧
      c6NoteB ∈ listPendingLocalCreates "Tasks" [c6NoteB] ∧
      specQualifies c6NoteB = false) := by
  refine ⟨⟨by decide, ?_, by decide⟩, ⟨by decide, ?_, by decide⟩⟩
  · simp [listPendingLocalCreates, List.mem_filter]
    decide
  · simp [listPendingLocalCreates, List.mem_filter]
    decide

theorem pendingLocalCreateAccepts_eq (folder : String) (note : PendingNote) :
    pendingLocalCreateAccepts folder note =
      (inTasksFolder folder note && amendedQualifies note) := by
  unfold pendingLocalCreateAccepts amendedQualifies inTasksFolder
  by_cases hpath : (note.path == folder || strStartsWith note.path (folder ++ "/")) = true
  · rw [if_pos hpath, hpath, Bool.true_and]
    cases hfm : note.fm with
    | none => rfl
    | some fm =>
      dsimp only
      by_cases h1 : (isTruthy fm.todoist_sync &&
          extractRawTodoistId fm.todoist_id == "") = true
      · rw [if_pos h1]
        cases hp : fm.todoist_pending_id with
        | none => simp [amendedPendingEmpty, h1]
        | some v =>
          cases v with
          | str s =>
            by_cases hblank : jsTrim s = ""
            · simp [amendedPendingEmpty, h1, hblank]
            · simp [amendedPendingEmpty, h1, hblank]
          | num n => simp [amendedPendingEmpty, h1]
          | bool b => simp [amendedPendingEmpty, h1]
          | null => simp [amendedPendingEmpty, h1]
      · rw [if_neg h1]
        rcases Bool.and_eq_false_iff.mp (Bool.not_eq_true _ ▸ h1) with h | h <;>
          simp [h]
  · rw [if_neg hpath]
    simp at hpath
    simp [hpath]

/-- C6 (amended): among the notes in the active tasks folder, a note is
returned by the pending-local-creates enumeration if and only if its sync
flag is truthy, its remote task ID is empty, its `pending_remote_id` is
empty *when read as a string* (a non-string value is ignored and treated as
empty), and its effective task title (title key, legacy `title` key, then
file basename) is non-empty. -/
theorem C6_pending_scan_amended (folder : String) (notes : List PendingNote)
    (note : PendingNote) (hmem : note ∈ notes)
    (hfolder : inTasksFolder folder note = true) :
    note ∈ listPendingLocalCreates folder notes ↔ amendedQualifies note = true := by
  unfold listPendingLocalCreates
  rw [List.mem_filter, pendingLocalCreateAccepts_eq, hfolder]
  simp [hmem]

/-- C6 witness: a fresh sync-flagged note with a title qualifies and is
returned. -/
theorem C6_witness :
    (⟨"Tasks/Buy milk.md", "Buy milk",
       some ⟨some (.bool true), none, none, some (.str "Buy milk"), none⟩⟩ : PendingNote) ∈
      listPendingLocalCreates "Tasks"
        [⟨"Tasks/Buy milk.md", "Buy milk",
          some ⟨some (.bool true), none, none, some (.str "Buy milk"), none⟩⟩] :=
  (C6_pending_scan_amended "Tasks" _ _ (by decide) (by decide)).mpr (by decide)

/-! ## The collision-safe path allocator (`getUniqueFilePathInFolder`, C8)

The vault is the finite set of existing entries (files and folders);
`getAbstractFileByPath` is lookup by path.  The source's unbounded
`while (true)` suffix search is rendered with a fuel parameter: for any
fuel large enough to reach the first free suffix, the model returns what
the loop returns. -/

/-- A vault entry kind (`TFile` vs `TFolder`). -/
inductive VaultEntryKind where
  | file
  | folder
deriving DecidableEq, Repr

/-- An existing vault entry. -/
structure VaultEntry where
  path : String
  kind : VaultEntryKind
deriving DecidableEq, Repr

/-- `app.vault.getAbstractFileByPath(p)`. -/
def getAbstractFileByPath (vault : List VaultEntry) (p : String) : Option VaultEntry :=
  vault.find? (fun e => e.path == p)

/-- The reserved characters `sanitizeFileName` blanks out. -/
def isPathReserved (c : Char) : Bool :=
  c = '\\' || c = '/' || c = ':' || c = '*' || c = '?' || c = '"' ||
  c = '<' || c = '>' || c = '|'

/-- `replace(/\s+/g, ' ')`: collapse whitespace runs to single spaces. -/
def jsCollapseWs : Bool → List Char → List Char
  | _, [] => []
  | prevSpace, c :: rest =>
    if jsIsSpace c then
      if prevSpace then jsCollapseWs true rest
      else ' ' :: jsCollapseWs true rest
    else c :: jsCollapseWs false rest

/-- `sanitizeFileName(value)` (task-note-factory.ts): blank reserved
characters, collapse whitespace, trim, truncate to 80 characters. -/
def sanitizeFileName (value : String) : String :=
  let replaced := value.toList.map (fun c => if isPathReserved c then ' ' else c)
  let collapsed : String := ⟨jsCollapseWs false replaced⟩
  ⟨(jsTrim collapsed).toList.take 80⟩

/-- `sanitizeFileName(preferredFileName.replace(/\.md$/i, '')) || 'Task'`. -/
def sanitizedBaseName (preferredFileName : String) : String :=
  let s := sanitizeFileName (stripMdExt preferredFileName)
  if s = "" then "Task" else s

/-- The preferred candidate path `folder/name.md`. -/
def uniqueCandidate (folder name : String) : String :=
  folder ++ "/" ++ name ++ ".md"

/-- The suffixed candidate path `folder/name-n.md`. -/
def suffixCandidate (folder name : String) (n : Nat) : String :=
  folder ++ "/" ++ name ++ "-" ++ toString n ++ ".md"

/-- The `while (true)` suffix loop of `getUniqueFilePathInFolder`,
fuel-indexed. -/
def allocGo (vault : List VaultEntry) (folder name : String) :
    Nat → Nat → Option String
  | 0, _ => none
  | fuel + 1, n =>
    if (getAbstractFileByPath vault (suffixCandidate folder name n)).isNone then
      some (suffixCandidate folder name n)
    else allocGo vault folder name fuel (n + 1)

/-- `getUniqueFilePathInFolder(folder, preferredFileName, currentPath)`
(task-note-repository.ts).  `normalizePath` (an Obsidian primitive outside
this codebase) is the identity on the already-normalised paths the model
works with. -/
def getUniqueFilePathInFolder (vault : List VaultEntry)
    (folder preferredFileName : String) (currentPath : Option String)
    (fuel : Nat) : Option String :=
  match getAbstractFileByPath vault (uniqueCandidate folder (sanitizedBaseName preferredFileName)) with
  | none => some (uniqueCandidate folder (sanitizedBaseName preferredFileName))
  | some existing =>
    if existing.kind = .file ∧ some existing.path = currentPath then
      some (uniqueCandidate folder (sanitizedBaseName preferredFileName))
    else allocGo vault folder (sanitizedBaseName preferredFileName) fuel 2

/-- `p` is occupied by an entry that is not the file at `currentPath`. -/
def occupiedByOther (vault : List VaultEntry) (p : String)
    (currentPath : Option String) : Bool :=
  match getAbstractFileByPath vault p with
  | none => false
  | some e => ! (e.kind == .file && some e.path == currentPath)

theorem allocGo_free (vault : List VaultEntry) (folder name : String)
    (fuel : Nat) : ∀ (n : Nat) (p : String),
    allocGo vault folder name fuel n = some p →
    getAbstractFileByPath vault p = none := by
  induction fuel with
  | zero => intro n p h; cases h
  | succ fuel ih =>
    intro n p h
    unfold allocGo at h
    split at h
    · rename_i hfree
      cases h
      exact Option.isNone_iff_eq_none.mp hfree
    · exact ih (n + 1) p h

theorem allocGo_smallest (vault : List VaultEntry) (folder name : String) :
    ∀ (fuel s n : Nat), s ≤ n →
    getAbstractFileByPath vault (suffixCandidate folder name n) = none →
    (∀ m, m < n → s ≤ m →
      (getAbstractFileByPath vault (suffixCandidate folder name m)).isSome = true) →
    n - s < fuel →
    allocGo vault folder name fuel s = some (suffixCandidate folder name n) := by
  intro fuel
  induction fuel with
  | zero => intro s n _ _ _ hfuel; omega
  | succ fuel ih =>
    intro s n hs hfree hmin hfuel
    unfold allocGo
    by_cases he : s = n
    · subst he
      rw [hfree]
      simp
    · have hlt : s < n := lt_of_le_of_ne hs he
      have hocc := hmin s hlt le_rfl
      have hoccF : (getAbstractFileByPath vault (suffixCandidate folder name s)).isNone = false := by
        cases hh : getAbstractFileByPath vault (suffixCandidate folder name s)
        · rw [hh] at hocc; cases hocc
        · rfl
      rw [hoccF]
      simp only [Bool.false_eq_true, if_false]
      exact ih (s + 1) n (by omega) hfree
        (fun m hm hsm => hmin m hm (by omega)) (by omega)

/-- C8: the collision-safe path allocator never returns a path occupied by
a different existing file — it returns the preferred candidate path when
that path is free or is occupied by the file at the given current path, and
otherwise (with fuel reaching it, as the source's unbounded loop does) the
preferred name with the smallest numeric suffix `-n` (n ≥ 2) whose path is
unoccupied; every returned path is unoccupied or the current file's own
path. -/
theorem C8_unique_path_allocator (vault : List VaultEntry)
    (folder preferredFileName : String) (currentPath : Option String)
    (fuel n : Nat) :
    (occupiedByOther vault (uniqueCandidate folder (sanitizedBaseName preferredFileName))
        currentPath = false →
      getUniqueFilePathInFolder vault folder preferredFileName currentPath fuel =
        some (uniqueCandidate folder (sanitizedBaseName preferredFileName))) ∧
    (occupiedByOther vault (uniqueCandidate folder (sanitizedBaseName preferredFileName))
        currentPath = true →
      2 ≤ n →
      getAbstractFileByPath vault
        (suffixCandidate folder (sanitizedBaseName preferredFileName) n) = none →
      (∀ m, m < n → 2 ≤ m →
        (getAbstractFileByPath vault
          (suffixCandidate folder (sanitizedBaseName preferredFileName) m)).isSome = true) →
      n - 2 < fuel →
      getUniqueFilePathInFolder vault folder preferredFileName currentPath fuel =
        some (suffixCandidate folder (sanitizedBaseName preferredFileName) n)) ∧
    (∀ p : String,
      getUniqueFilePathInFolder vault folder preferredFileName currentPath fuel = some p →
      occupiedByOther vault p currentPath = false) := by
  refine ⟨?_, ?_, ?_⟩
  · intro hfree
    unfold occupiedByOther at hfree
    cases hc : getAbstractFileByPath vault
        (uniqueCandidate folder (sanitizedBaseName preferredFileName)) with
    | none => simp [getUniqueFilePathInFolder, hc]
    | some e =>
      rw [hc] at hfree
      simp only [Bool.not_eq_false', Bool.and_eq_true, beq_iff_eq] at hfree
      simp [getUniqueFilePathInFolder, hc, if_pos (And.intro hfree.1 hfree.2)]
  · intro hocc h2 hfree hmin hfuel
    unfold occupiedByOther at hocc
    cases hc : getAbstractFileByPath vault
        (uniqueCandidate folder (sanitizedBaseName preferredFileName)) with
    | none => rw [hc] at hocc; cases hocc
    | some e =>
      rw [hc] at hocc
      have hocc2 : (!(e.kind == VaultEntryKind.file && some e.path == currentPath)) = true := hocc
      have hcond : ¬ (e.kind = VaultEntryKind.file ∧ some e.path = currentPath) := by
        intro hpair
        rw [hpair.1, hpair.2] at hocc2
        simp at hocc2
      simp only [getUniqueFilePathInFolder, hc, if_neg hcond]
      exact allocGo_smallest vault folder (sanitizedBaseName preferredFileName)
        fuel 2 n h2 hfree hmin hfuel
  · intro p hp
    unfold getUniqueFilePathInFolder at hp
    cases hc : getAbstractFileByPath vault
        (uniqueCandidate folder (sanitizedBaseName preferredFileName)) with
    | none =>
      rw [hc] at hp
      cases hp
      unfold occupiedByOther
      rw [hc]
    | some e =>
      rw [hc] at hp
      have hp2 : (if e.kind = VaultEntryKind.file ∧ some e.path = currentPath then
          some (uniqueCandidate folder (sanitizedBaseName preferredFileName))
        else allocGo vault folder (sanitizedBaseName preferredFileName) fuel 2) = some p := hp
      split at hp2
      · rename_i hcond
        cases hp2
        unfold occupiedByOther
        rw [hc]
        simp [hcond.1, hcond.2]
      · have hfree := allocGo_free vault folder (sanitizedBaseName preferredFileName)
          fuel 2 p hp2
        unfold occupiedByOther
        rw [hfree]

/-- C8 witness: with `Tasks/Note.md` and `Tasks/Note-2.md` both taken by
other files, the allocator returns `Tasks/Note-3.md`. -/
theorem C8_witness :
    getUniqueFilePathInFolder
      [⟨"Tasks/Note.md", .file⟩, ⟨"Tasks/Note-2.md", .file⟩]
      "Tasks" "Note.md" none 5 = some "Tasks/Note-3.md" := by
  have h := (C8_unique_path_allocator
    [⟨"Tasks/Note.md", .file⟩, ⟨"Tasks/Note-2.md", .file⟩]
    "Tasks" "Note.md" none 5 3).2.1 (by decide) (by decide) (by decide)
    (by decide) (by decide)
  simpa using h

/-! ## Signature-line repair (`repairSignatureFrontmatterInContent`, C9)

The routine matches the leading frontmatter block with the anchored lazy
regex `^---\n[\s\S]*?\n---`, validates the two signature lines, replaces the
invalid ones with `KEY: ""`, and splices the fixed block back with
`content.replace(originalFrontmatter, fixedFrontmatter)`.  JavaScript's
`String.prototype.replace` interprets `$`-patterns (`$$`, `$&`, backtick,
quote) in its *replacement string*, which the model reproduces via
`getSubstitution`. -/

/-- Split `s` at the first occurrence of `pat`
(`s = pre ++ pat ++ suf`, `pre` minimal). -/
def splitFirstInfixList (pat : List Char) : List Char → Option (List Char × List Char)
  | [] => if pat = [] then some ([], []) else none
  | c :: rest =>
    if pat.isPrefixOf (c :: rest) then some ([], (c :: rest).drop pat.length)
    else
      match splitFirstInfixList pat rest with
      | some (pre, suf) => some (c :: pre, suf)
      | none => none

/-- String version of `splitFirstInfixList`. -/
def splitFirstInfix (s pat : String) : Option (String × String) :=
  (splitFirstInfixList pat.toList s.toList).map (fun r => (⟨r.1⟩, ⟨r.2⟩))

/-- `content.match` against the anchored lazy pattern `^---\n[\s\S]*?\n---`:
the content must start with `---\n` and the block ends at the first
following `\n---`. -/
def matchFrontmatterBlock (content : String) : Option String :=
  if strStartsWith content "---\n" then
    match splitFirstInfix ⟨content.toList.drop 4⟩ "\n---" with
    | some (pre, _) => some ("---\n" ++ pre ++ "\n---")
    | none => none
  else none

/-- `^\s*KEY:` (case-sensitive, as in the built `importedRe`/`syncedRe`;
keys are property names without leading whitespace). -/
def lineStartsWithKey (line key : String) : Bool :=
  (key ++ ":").toList.isPrefixOf (line.toList.dropWhile jsIsSpace)

/-- Case-insensitive (ASCII) prefix removal, for the `i`-flagged validity
pattern. -/
def dropPrefixCI : List Char → List Char → Option (List Char)
  | [], s => some s
  | _ :: _, [] => none
  | p :: ps, c :: cs =>
    if toLowerCharAscii p = toLowerCharAscii c then dropPrefixCI ps cs else none

/-- `[0-9a-f]` under the `i` flag. -/
def isHexDigitCI (c : Char) : Bool :=
  (48 ≤ c.toNat && c.toNat ≤ 57) || (97 ≤ c.toNat && c.toNat ≤ 102) ||
  (65 ≤ c.toNat && c.toNat ≤ 70)

/-- `\s*$`. -/
def allWs (cs : List Char) : Bool := cs.all jsIsSpace

/-- `isValidSignatureFrontmatterLine(line, key)`: the strict pattern
`^\s*KEY:\s*(?:"hex8"|'hex8'|hex8|""|'')?\s*$`, case-insensitive. -/
def isValidSignatureFrontmatterLine (line key : String) : Bool :=
  match dropPrefixCI (key ++ ":").toList (line.toList.dropWhile jsIsSpace) with
  | none => false
  | some rest =>
    let r := rest.dropWhile jsIsSpace
    let quoteCase : Char → Bool := fun q =>
      match r with
      | q0 :: rest2 =>
        q0 = q &&
          ((decide (rest2.take 1 = [q]) && allWs (rest2.drop 1)) ||
            ((rest2.take 8).length == 8 && (rest2.take 8).all isHexDigitCI &&
              decide ((rest2.drop 8).take 1 = [q]) && allWs ((rest2.drop 8).drop 1)))
      | [] => false
    allWs r ||
    quoteCase '"' ||
    quoteCase (Char.ofNat 39) ||
    ((r.take 8).length == 8 && (r.take 8).all isHexDigitCI && allWs (r.drop 8))

/-- The per-line repair: a line that (case-sensitively) starts with one of
the two keys and fails its validity pattern becomes `KEY: ""`; everything
else is kept.  The second component records whether the line changed. -/
def repairLine (importedSigKey syncedSigKey : String) (line : String) : String × Bool :=
  if lineStartsWithKey line importedSigKey then
    if isValidSignatureFrontmatterLine line importedSigKey then (line, false)
    else (importedSigKey ++ ": \"\"", true)
  else if lineStartsWithKey line syncedSigKey then
    if isValidSignatureFrontmatterLine line syncedSigKey then (line, false)
    else (syncedSigKey ++ ": \"\"", true)
  else (line, false)

/-- ECMAScript `GetSubstitution` for a string replacement value: `$$` is a
literal dollar, `$&` the matched text, a backquoted dollar the portion
before the match, a quoted dollar the portion after; with no capture
groups every other `$`-sequence stays literal. -/
def getSubstitution (matched before after : String) : List Char → List Char
  | [] => []
  | '$' :: d :: rest =>
    if d = '$' then '$' :: getSubstitution matched before after rest
    else if d = '&' then matched.toList ++ getSubstitution matched before after rest
    else if d = Char.ofNat 96 then before.toList ++ getSubstitution matched before after rest
    else if d = Char.ofNat 39 then after.toList ++ getSubstitution matched before after rest
    else '$' :: d :: getSubstitution matched before after rest
  | c :: rest => c :: getSubstitution matched before after rest

/-- `s.replace(searchValue, replaceValue)` with string arguments: replace
the first occurrence, running the replacement through `GetSubstitution`. -/
def jsReplaceOnce (s searchValue replaceValue : String) : String :=
  match splitFirstInfix s searchValue with
  | none => s
  | some (pre, suf) =>
    pre ++ (⟨getSubstitution searchValue pre suf replaceValue.toList⟩ : String) ++ suf

/-- `repairSignatureFrontmatterInContent(content, importedSigKey,
syncedSigKey)` from task-note-repository.ts. -/
def repairSignatureFrontmatterInContent
    (content importedSigKey syncedSigKey : String) : String :=
  match matchFrontmatterBlock content with
  | none => content
  | some originalFrontmatter =>
    let lines := (splitOnCharList '\n' originalFrontmatter.toList).map
      (fun l => (⟨l⟩ : String))
    let fixedResults := lines.map (repairLine importedSigKey syncedSigKey)
    if fixedResults.any (·.2) then
      let fixedFrontmatter := String.intercalate "\n" (fixedResults.map (·.1))
      if fixedFrontmatter = originalFrontmatter then content
      else jsReplaceOnce content originalFrontmatter fixedFrontmatter
    else content

/-- A file whose frontmatter has one corrupt signature line and another,
unrelated line containing the character sequence `$$`. -/
def c9Content : String :=
  "---\nnote: $$x\ntodoist_last_imported_signature: bad\n---\nbody"

/-- What the code actually produces on `c9Content`: the `$$` in the
untouched line collapses to a single `$`. -/
def c9ActualOutput : String :=
  "---\nnote: $x\ntodoist_last_imported_signature: \"\"\n---\nbody"

/-- What the claim (and the spec) say the routine produces on `c9Content`:
only the corrupt signature line is replaced, every other line unchanged. -/
def c9ClaimedOutput : String :=
  "---\nnote: $$x\ntodoist_last_imported_signature: \"\"\n---\nbody"

set_option maxRecDepth 40000 in
/-- C9 (code bug): on `c9Content` the repair routine passes the fixed
frontmatter as the replacement string of `String.prototype.replace`, whose
`$`-patterns are interpreted — the untouched `note: $$x` line is mangled to
`note: $x`, contradicting the claim (and spec §4.3) that every other line
is left unchanged.  On `$`-free content the routine does behave as
claimed: the corrupt line alone is rewritten, and fully valid content is
returned unchanged. -/
theorem C9_repair_replacement_pattern_bug :
    repairSignatureFrontmatterInContent c9Content
      "todoist_last_imported_signature" "todoist_last_synced_signature" =
      c9ActualOutput ∧
    c9ActualOutput ≠ c9ClaimedOutput ∧
    repairSignatureFrontmatterInContent
      "---\nnote: x\ntodoist_last_imported_signature: bad\n---\nbody"
      "todoist_last_imported_signature" "todoist_last_synced_signature" =
      "---\nnote: x\ntodoist_last_imported_signature: \"\"\n---\nbody" ∧
    repairSignatureFrontmatterInContent
      "---\nnote: x\ntodoist_last_imported_signature: \"0a1b2c3d\"\n---\nbody"
      "todoist_last_imported_signature" "todoist_last_synced_signature" =
      "---\nnote: x\ntodoist_last_imported_signature: \"0a1b2c3d\"\n---\nbody" := by
  refine ⟨by decide, by decide, by decide, by decide⟩

end TaskTodoist
